import Mathlib

/-!
# Verification of the news/PR page discovery engine

Shallow embedding of the discovery orchestration engine from
`src/examples/stagehand_company_news` (news-discovery.ts together with its
inlined utils module, plus the S3 persistence layer's per-domain result
cache).  Pure decision logic (URL utilities, the heuristic classifier, the
candidate builder, the ranking refinement, the verification loop, the
top-level orchestrator and the cache-write policy) is translated into
executable Lean definitions; the external collaborators (browser
navigation, the semantic oracle, the ranking LLM call) are parameterised by
their observable outcomes.

Strings are modelled with Lean `String`/`List Char`; `toLowerCase` is
modelled on the ASCII range (`Char.toLower`), which is what the engine's
URL and keyword material consists of.
-/

set_option maxRecDepth 4096

-- ===================================================================
-- MARK: String helpers (List Char based, kernel-reduction friendly)
-- ===================================================================

/-- ASCII lower-casing of a string, modelling JS `toLowerCase` on the
ASCII inputs the engine manipulates. -/
def lowerStr (s : String) : String :=
  String.mk (s.data.map Char.toLower)

/-- Substring containment on char lists, modelling JS `String.includes`. -/
def containsSubList (pat : List Char) : List Char → Bool
  | [] => pat.isEmpty
  | c :: rest => pat.isPrefixOf (c :: rest) || containsSubList pat rest

/-- JS `haystack.includes(needle)`. -/
def strContains (haystack needle : String) : Bool :=
  containsSubList needle.data haystack.data

/-- JS `s.endsWith(suffix)`. -/
def strEndsWith (s suf : String) : Bool :=
  suf.data.isSuffixOf s.data

/-- JS `s.startsWith(p)`. -/
def strStartsWith (s p : String) : Bool :=
  p.data.isPrefixOf s.data

/-- Split a char list on a separator char, modelling JS `String.split`. -/
def splitOnChar (sep : Char) : List Char → List (List Char)
  | [] => [[]]
  | c :: rest =>
    let r := splitOnChar sep rest
    if c = sep then [] :: r
    else
      match r with
      | [] => [[c]]
      | h :: t => (c :: h) :: t

/-- JS `pathname.split('/').filter((s) => s)`: the non-empty segments of a
path. -/
def splitSlash (s : String) : List String :=
  (splitOnChar '/' s.data).filterMap fun l =>
    if l.isEmpty then none else some (String.mk l)

/-- Join path segments with `'/'` (used to rebuild shortened paths). -/
def joinSlash : List String → String
  | [] => ""
  | [x] => x
  | x :: xs => x ++ "/" ++ joinSlash xs

/-- Strip a leading case-sensitive `"www."`, modelling the regex
`replace(/^www\./, '')`. -/
def stripWww (s : String) : String :=
  if ("www.".data).isPrefixOf s.data then String.mk (s.data.drop 4) else s

-- ===================================================================
-- MARK: URL parsing (models `new URL(...)` on hierarchical URLs)
-- ===================================================================

/-- Parsed form of a hierarchical `scheme://host[:port][/path][?q][#f]`
URL.  Models the WHATWG `URL` class as used by the engine: `host`
includes the port, `hostname` does not; `pathname` always starts with
`'/'`.  Character case is preserved at parse time; every comparison site
in the source applies `toLowerCase` explicitly and the embedding mirrors
that with `lowerStr`. -/
structure ParsedUrl where
  scheme : String
  host : String
  hostname : String
  pathname : String
deriving Repr, DecidableEq

/-- A char that does not terminate the scheme (or the port in a host). -/
def notColon (c : Char) : Bool := !(c == ':')

/-- A char that does not terminate the host part. -/
def notHostDelim (c : Char) : Bool := !(c == '/' || c == '?' || c == '#')

/-- A char that does not start the query or fragment. -/
def notQueryHash (c : Char) : Bool := !(c == '?' || c == '#')

/-- Models `new URL(s)` for hierarchical URLs: a non-empty scheme before
`"://"`, a non-empty host up to the first `/`, `?` or `#`, then the path.
Non-hierarchical URLs (no `"://"`, empty host) are parse failures, which
the source handles in `catch` blocks. -/
def parseUrl (s : String) : Option ParsedUrl :=
  let l := s.data
  let schemeChars := l.takeWhile notColon
  let rest := l.drop schemeChars.length
  if schemeChars.isEmpty then none
  else
    match rest with
    | ':' :: '/' :: '/' :: rest2 =>
      let hostChars := rest2.takeWhile notHostDelim
      if hostChars.isEmpty then none
      else
        let after := rest2.drop hostChars.length
        let pathChars := after.takeWhile notQueryHash
        some { scheme := String.mk schemeChars
             , host := String.mk hostChars
             , hostname := String.mk (hostChars.takeWhile notColon)
             , pathname := if pathChars.isEmpty then "/" else String.mk pathChars }
    | _ => none

-- ===================================================================
-- MARK: Domain/URL utilities (utils module + news-discovery.ts)
-- ===================================================================

/-- `isUrlOnDomain` from the utils module: the URL's hostname (lowercased)
equals the `www.`-stripped, lowercased company domain or is a subdomain of
it; malformed URLs return `false`. -/
def isUrlOnDomain (urlString companyDomain : String) : Bool :=
  match parseUrl urlString with
  | none => false
  | some u =>
    let urlHost := lowerStr u.hostname
    let targetDomain := stripWww (lowerStr companyDomain)
    urlHost = targetDomain || ("." ++ targetDomain).data.isSuffixOf urlHost.data

/-- `isOnDomain` from news-discovery.ts (no `www.` stripping of the
target). -/
def isOnDomain (url targetDomain : String) : Bool :=
  match parseUrl url with
  | none => false
  | some u =>
    let urlHost := lowerStr u.hostname
    let domain := lowerStr targetDomain
    urlHost = domain || ("." ++ domain).data.isSuffixOf urlHost.data

/-- `normalizeUrl(url, baseUrl)` from news-discovery.ts: anchors give
`null`; a leading `'/'` (including protocol-relative `"//..."`) is
concatenated onto the base; other non-`http(s)` strings get `base + '/'`
prepended; absolute `http(s)` URLs pass through. -/
def normalizeUrl (url baseUrl : String) : Option String :=
  if url = "#" || strStartsWith url "#" then none
  else if strStartsWith url "/" then some (baseUrl ++ url)
  else if !strStartsWith url "http://" && !strStartsWith url "https://" then
    some (baseUrl ++ "/" ++ url)
  else some url

-- a quick sanity example (kept: it documents the parser on a normal URL)
example :
    parseUrl "https://Investors.Example.com:8080/News/2024/item?x=1#f" =
      some { scheme := "https"
           , host := "Investors.Example.com:8080"
           , hostname := "Investors.Example.com"
           , pathname := "/News/2024/item" } := by decide

example : isUrlOnDomain "https://investors.apple.com/news" "www.Apple.com" = true := by decide

example : isOnDomain "https://example.org/news" "example.com" = false := by decide

-- ===================================================================
-- MARK: Data model
-- ===================================================================

/-- A search result / raw link: `{title, url, snippet}` (types.ts). -/
structure SearchResult where
  title : String
  url : String
  snippet : String
deriving Repr, DecidableEq

/-- A homepage/site-search link `{text, url}`. -/
structure Link where
  text : String
  url : String
deriving Repr, DecidableEq

/-- The discovery configuration fields the embedded logic consumes
(types.ts `DiscoveryConfig`; browser-only fields omitted). -/
structure DiscoveryConfig where
  maxSearchResults : Nat
  maxCandidatesToCheck : Nat
deriving Repr, DecidableEq

-- ===================================================================
-- MARK: Heuristic filter (`filterNewsRelatedUrls`, utils module)
-- ===================================================================

/-- `filterNewsRelatedUrls(results, companyDomain)`: keep results on the
company domain carrying a news/press keyword in URL, title or snippet and
not pointing at a pdf/jpg/png. -/
def filterNewsRelatedUrls (results : List SearchResult) (companyDomain : String) :
    List SearchResult :=
  results.filter fun result =>
    isUrlOnDomain result.url companyDomain &&
    (let urlLower := lowerStr result.url
     let titleLower := lowerStr result.title
     let snippetLower := lowerStr result.snippet
     let hasRelevantKeywords :=
       strContains urlLower "news" ||
       strContains urlLower "press" ||
       strContains urlLower "media" ||
       strContains urlLower "blog" ||
       strContains urlLower "updates" ||
       strContains titleLower "news" ||
       strContains titleLower "press" ||
       strContains titleLower "media" ||
       strContains snippetLower "news" ||
       strContains snippetLower "press release"
     let isNotFile :=
       !strEndsWith urlLower ".pdf" &&
       !strEndsWith urlLower ".jpg" &&
       !strEndsWith urlLower ".png"
     hasRelevantKeywords && isNotFile)

-- ===================================================================
-- MARK: Heuristic classifier (`categorizeUrls`, utils module)
-- ===================================================================

/-- Does the regex `/\/(20\d{2}|19\d{2})\//` match, i.e. does the text
contain `/<20xx or 19xx>/`? -/
def yearSlashAt (l : List Char) : Bool :=
  match l with
  | '/' :: a :: b :: c :: d :: '/' :: _ =>
    ((a = '2' && b = '0') || (a = '1' && b = '9')) && c.isDigit && d.isDigit
  | _ => false

/-- Scan every suffix for a `/year/` occurrence. -/
def hasYearSub : List Char → Bool
  | [] => false
  | c :: rest => yearSlashAt (c :: rest) || hasYearSub rest

/-- The exact last-path-segment names the classifier treats as generic
listing pages (news-discovery.ts `isGenericPage`). -/
def genericNames : List String :=
  ["", "news", "press", "media", "newsroom", "press-releases",
   "news-releases", "presrel.html", "index.html", "announcements"]

/-- The article-signal / generic-override decision of `categorizeUrls` for
one result: `true` means the result is pushed to `articles`, `false` to
`listingPages` (including the catch branch for unparseable URLs). -/
def isSpecificArticle (result : SearchResult) : Bool :=
  match parseUrl result.url with
  | none => false
  | some url =>
    let urlPath := String.mk (result.url.data.takeWhile (fun c => !(c == '?')))
    let pathParts := splitSlash url.pathname
    let pathLower := lowerStr url.pathname
    let titleLower := lowerStr result.title
    let hasYearInPath := hasYearSub urlPath.data
    let lastSegment := (pathParts.getLast?).getD ""
    let lastSegmentLower := lowerStr lastSegment
    let hyphenCount := lastSegment.data.count '-'
    let isLongSlug := decide (lastSegment.length > 30)
    let hasMultipleHyphens := decide (hyphenCount ≥ 4)
    let looksLikeArticleSlug := isLongSlug || hasMultipleHyphens
    let hasArticlePathIndicators :=
      strContains pathLower "/pressrelease/" ||
      strContains pathLower "/article/" ||
      strContains pathLower "/whitepapers/" ||
      strContains pathLower "/whitepaper/" ||
      strContains pathLower "/insights/" ||
      strContains pathLower "/story/" ||
      strContains pathLower "/post/"
    let hasSpecificTitleIndicators :=
      strContains titleLower " announces " ||
      strContains titleLower " reports " ||
      strContains titleLower " expands " ||
      strContains titleLower " launches " ||
      strContains titleLower " releases " ||
      strContains titleLower " unveils " ||
      strContains titleLower " introduces " ||
      strContains titleLower "fiscal 20" ||
      strContains titleLower "q1 " ||
      strContains titleLower "q2 " ||
      strContains titleLower "q3 " ||
      strContains titleLower "q4 " ||
      strContains titleLower "quarter " ||
      strContains titleLower "2025 review" ||
      strContains titleLower "2024 review"
    let isGenericPage := genericNames.contains lastSegmentLower
    (hasYearInPath || looksLikeArticleSlug || hasArticlePathIndicators ||
      hasSpecificTitleIndicators) && !isGenericPage

/-- `categorizeUrls(results)`: partition results into
`(listingPages, articles)` preserving order; unparseable URLs land in
`listingPages` (the catch branch). -/
def categorizeUrls (results : List SearchResult) :
    List SearchResult × List SearchResult :=
  (results.filter fun r => !isSpecificArticle r,
   results.filter fun r => isSpecificArticle r)

-- ===================================================================
-- MARK: Root-URL extraction (`extractRootUrlsFromArticles`)
-- ===================================================================

/-- The candidate root URLs one article contributes: for `i = 1..min 3
(#segments)` rebuild `protocol//host/first-i-segments` and keep it when
the shortened path carries a news/press/media/blog token. -/
def rootUrlsOfArticle (article : SearchResult) : List String :=
  match parseUrl article.url with
  | none => []
  | some url =>
    let pathParts := splitSlash url.pathname
    (List.range' 1 (min 3 pathParts.length)).filterMap fun i =>
      let shortenedPath := "/" ++ joinSlash (pathParts.take i)
      let rootUrl := url.scheme ++ "://" ++ url.host ++ shortenedPath
      let pathLower := lowerStr shortenedPath
      if strContains pathLower "news" || strContains pathLower "press" ||
          strContains pathLower "media" || strContains pathLower "blog" then
        some rootUrl
      else none

/-- Insertion-ordered set insertion (JS `Set.add`). -/
def insertUnique (l : List String) (x : String) : List String :=
  if l.contains x then l else l ++ [x]

/-- `extractRootUrlsFromArticles(articles)`: process at most 10 articles,
accumulate root URLs deduplicated in insertion order, and wrap each as a
synthetic `SearchResult`. -/
def extractRootUrlsFromArticles (articles : List SearchResult) : List SearchResult :=
  let rootUrlCandidates :=
    (articles.take 10).foldl
      (fun acc article => (rootUrlsOfArticle article).foldl insertUnique acc) []
  rootUrlCandidates.map fun url =>
    { title := "Extracted root: " ++ url
    , url := url
    , snippet := "Root URL extracted from article path" }

example :
    isSpecificArticle
      { title := "Acme Announces Q3"
      , url := "https://acme.com/press/2024/acme-announces-q3-results-today"
      , snippet := "" } = true := by decide

example :
    isSpecificArticle
      { title := "Acme Announces Q3"
      , url := "https://acme.com/press/2024/news"
      , snippet := "" } = false := by decide

example :
    extractRootUrlsFromArticles
      [{ title := "t"
       , url := "https://acme.com/news-releases/2024/item"
       , snippet := "s" }] =
      [{ title := "Extracted root: https://acme.com/news-releases"
       , url := "https://acme.com/news-releases"
       , snippet := "Root URL extracted from article path" },
       { title := "Extracted root: https://acme.com/news-releases/2024"
       , url := "https://acme.com/news-releases/2024"
       , snippet := "Root URL extracted from article path" },
       { title := "Extracted root: https://acme.com/news-releases/2024/item"
       , url := "https://acme.com/news-releases/2024/item"
       , snippet := "Root URL extracted from article path" }] := by decide

-- ===================================================================
-- MARK: Candidate builder, search strategy (discoverViaSearch 1B-1C)
-- ===================================================================

/-- Step 1B's completeness filter: drop results with an empty (falsy)
title, url or snippet. -/
def completeResults (results : List SearchResult) : List SearchResult :=
  results.filter fun r => r.title ≠ "" && r.url ≠ "" && r.snippet ≠ ""

/-- The ordered candidate list the search strategy submits to
verification: listing pages first up to `maxCandidatesToCheck`, then (when
any article was seen) extracted root URLs up to the remaining capacity. -/
def buildSearchCandidates (results : List SearchResult) (domain : String)
    (config : DiscoveryConfig) : List SearchResult :=
  let newsRelatedUrls := filterNewsRelatedUrls (completeResults results) domain
  let categorized := categorizeUrls newsRelatedUrls
  let listingPages := categorized.1
  let articles := categorized.2
  let candidates := listingPages.take config.maxCandidatesToCheck
  if articles.length > 0 then
    let rootUrls := extractRootUrlsFromArticles articles
    let remaining := config.maxCandidatesToCheck - candidates.length
    candidates ++ rootUrls.take remaining
  else candidates

-- ===================================================================
-- MARK: Candidate builder, homepage strategy (discoverViaHomepage 2B-2C)
-- ===================================================================

/-- Keep-first deduplication by URL (the `seenUrls` set filter). -/
def dedupeByUrlAux (seen : List String) : List Link → List Link
  | [] => []
  | l :: rest =>
    if seen.contains l.url then dedupeByUrlAux seen rest
    else l :: dedupeByUrlAux (l.url :: seen) rest

/-- `validLinks.filter(...)` with a `Set` of seen URLs: first occurrence
of each URL wins. -/
def dedupeByUrl (links : List Link) : List Link :=
  dedupeByUrlAux [] links

/-- The step-2B domain/keyword filter on one homepage link. -/
def homepageLinkFilter (domain : String) (link : Link) : Bool :=
  let urlLower := lowerStr link.url
  let textLower := lowerStr link.text
  isOnDomain link.url domain &&
  !(strEndsWith urlLower ".pdf" || strEndsWith urlLower ".jpg" ||
    strEndsWith urlLower ".png") &&
  (["news", "press", "media", "blog", "updates", "investor",
    "announcement"].any fun kw =>
      strContains urlLower kw || strContains textLower kw)

/-- Step 2B: filter the unique homepage links by domain/keywords,
categorize, put listing pages before articles — and, when that filtering
removed every link, fall back to the unfiltered unique links. -/
def buildHomepageFilteredLinks (uniqueLinks : List Link) (domain : String) :
    List Link :=
  let domainFilteredLinks := uniqueLinks.filter (homepageLinkFilter domain)
  let linksAsSearchResults : List SearchResult :=
    domainFilteredLinks.map fun link =>
      { title := link.text, url := link.url, snippet := "" }
  let categorized := categorizeUrls linksAsSearchResults
  let filteredLinks : List Link :=
    categorized.1.map (fun r => { text := r.title, url := r.url }) ++
    categorized.2.map (fun r => { text := r.title, url := r.url })
  if filteredLinks.isEmpty then uniqueLinks else filteredLinks

-- ===================================================================
-- MARK: Ranking refinement (discoverViaHomepage 2C)
-- ===================================================================

/-- One entry of the LLM link-ranking response (LinkRankingSchema). -/
structure RankedItem where
  url : String
  score : Int
  reason : String
deriving Repr, DecidableEq

/-- Stable insertion keeping strictly-higher scores first; an element is
placed after every earlier element of equal or higher score, modelling the
stable JS `sort((a, b) => b.score - a.score)`. -/
def insertDesc (x : RankedItem) : List RankedItem → List RankedItem
  | [] => [x]
  | y :: ys => if x.score > y.score then x :: y :: ys else y :: insertDesc x ys

/-- Stable descending sort by score. -/
def sortByScoreDesc (l : List RankedItem) : List RankedItem :=
  l.foldl (fun acc x => insertDesc x acc) []

/-- JS `Map` built from `filteredLinks.map(l => [l.url, l])`: the last
link with a given URL wins. -/
def lookupLast (links : List Link) (u : String) : Option Link :=
  (links.filter fun l => l.url = u).getLast?

/-- The step-2C reorder of `filteredLinks` by a non-throwing ranking
response: empty ranking keeps the original order; otherwise candidates
are listed in sorted-ranking order and every link missing from the
ranking is appended afterwards. -/
def reorderByRanking (filteredLinks : List Link) (ranking : List RankedItem) :
    List Link :=
  if ranking.isEmpty then filteredLinks
  else
    let sortedRanking := sortByScoreDesc ranking
    let base := sortedRanking.filterMap fun r => lookupLast filteredLinks r.url
    let rankedUrls := sortedRanking.map fun r => r.url
    base ++ filteredLinks.filter fun l => !rankedUrls.contains l.url

/-- The full homepage candidate pipeline: filtered links, then the ranking
refinement; a `none` ranking outcome models the `extract` call throwing
(caught, original order kept).  `config` is accepted because
`discoverViaHomepage` receives it, but — as in the source — no candidate
cap is applied here. -/
def homepageCandidates (_config : DiscoveryConfig) (uniqueLinks : List Link)
    (domain : String) (rankingOutcome : Option (List RankedItem)) : List Link :=
  let filteredLinks := buildHomepageFilteredLinks uniqueLinks domain
  match rankingOutcome with
  | none => filteredLinks
  | some ranking => reorderByRanking filteredLinks ranking

-- ===================================================================
-- MARK: Candidate builder, site-search strategy (discoverViaSiteSearch 3C)
-- ===================================================================

/-- Step 3C: normalise each observed `{text, href}` pair and keep it only
when it is on the target domain, then deduplicate by URL. -/
def siteSearchUniqueLinks (extracted : List (String × String))
    (baseUrl domain : String) : List Link :=
  dedupeByUrl <| extracted.filterMap fun p =>
    match normalizeUrl p.2 baseUrl with
    | none => none
    | some normalizedUrl =>
      if isOnDomain normalizedUrl domain then
        some { text := p.1, url := normalizedUrl }
      else none

/-- Step 3D iterates `for i in [0, min(uniqueLinks.length,
maxCandidatesToCheck))`: the per-term candidate list actually visited. -/
def siteSearchTermCandidates (uniqueLinks : List Link)
    (config : DiscoveryConfig) : List Link :=
  uniqueLinks.take (min uniqueLinks.length config.maxCandidatesToCheck)

example :
    buildSearchCandidates
      [{ title := "Acme News", url := "https://acme.com/news", snippet := "acme news" },
       { title := "Other", url := "https://other.com/news", snippet := "news" }]
      "acme.com" { maxSearchResults := 10, maxCandidatesToCheck := 5 } =
      [{ title := "Acme News", url := "https://acme.com/news", snippet := "acme news" }] := by
  decide

example :
    homepageCandidates { maxSearchResults := 10, maxCandidatesToCheck := 5 }
      [{ text := "News", url := "https://acme.com/news" },
       { text := "Press", url := "https://acme.com/press" }]
      "acme.com"
      (some [{ url := "https://acme.com/press", score := 9, reason := "r" },
             { url := "https://acme.com/news", score := 5, reason := "r" }]) =
      [{ text := "Press", url := "https://acme.com/press" },
       { text := "News", url := "https://acme.com/news" }] := by decide

-- ===================================================================
-- MARK: Audit steps and verification protocol (1D / 2D / 3D loops)
-- ===================================================================

/-- One `DiscoveryStep` audit record (types.ts).  The wall-clock
`timestamp` field is not modelled. -/
structure Step where
  step : String
  action : String
  result : String
  detail : Option String
  url : Option String
deriving Repr, DecidableEq

/-- The oracle's verification outcome (PressReleaseVerificationSchema). -/
structure Verification where
  hasNews : Bool
  latestDate : Option String
  explanation : String
deriving Repr, DecidableEq

deriving instance DecidableEq for Except

/-- The observable behaviour of the external world for one candidate:
outcome of the first navigation (`.error` = `goto` threw), of the
semantic-oracle call, and of the validation re-navigation.  A navigation
that completes yields `response?.status()`, absent when the response was
null. -/
structure CandidateFate where
  nav1 : Except String (Option Nat)
  oracle : Except String Verification
  nav2 : Except String (Option Nat)
deriving Repr, DecidableEq

/-- `!status || status >= 400`: the response status is absent, falsy `0`,
or an HTTP error. -/
def navFailed : Option Nat → Bool
  | none => true
  | some status => status = 0 || 400 ≤ status

/-- `HTTP ${status || 'unknown'}`. -/
def statusText : Option Nat → String
  | none => "unknown"
  | some s => if s = 0 then "unknown" else Nat.repr s

/-- `HTTP ${validationStatus}` (no falsy fallback in the source at the
validation-failure log line). -/
def statusTextRaw : Option Nat → String
  | none => "undefined"
  | some s => Nat.repr s

/-- A successful verification's payload: the candidate URL and the
oracle-extracted date. -/
structure FoundPayload where
  url : String
  latestDate : Option String
deriving Repr, DecidableEq

/-- One iteration of the verification loop for a candidate URL, given the
external world's behaviour: returns the success payload (if accepted) and
the audit steps this iteration appends.  Mirrors discoverViaSearch's 1D
body (the 2D and 3D bodies are structurally identical, differing in the
step label and action strings passed in):
first navigation failure records `skip` and no oracle call is made; a
negative oracle verdict records `fail`; a positive verdict triggers a
second navigation whose failure records `fail` (verdict discarded) and
whose success records `success` and accepts the candidate.  A thrown
navigation/oracle call is caught by the per-candidate `try` with no step
recorded. -/
def checkCandidate (label checkAction verifyAction : String)
    (candidateUrl : String) (fate : CandidateFate) :
    Option FoundPayload × List Step :=
  match fate.nav1 with
  | .error _ => (none, [])
  | .ok status =>
    if navFailed status then
      (none, [{ step := label, action := checkAction, result := "skip"
              , detail := some ("HTTP " ++ statusText status)
              , url := some candidateUrl }])
    else
      match fate.oracle with
      | .error _ => (none, [])
      | .ok verification =>
        if verification.hasNews then
          match fate.nav2 with
          | .error _ => (none, [])
          | .ok validationStatus =>
            if navFailed validationStatus then
              (none, [{ step := label, action := verifyAction, result := "fail"
                      , detail := some ("Validation failed: HTTP " ++
                          statusTextRaw validationStatus)
                      , url := some candidateUrl }])
            else
              (some { url := candidateUrl, latestDate := verification.latestDate },
               [{ step := label, action := verifyAction, result := "success"
                , detail := some verification.explanation
                , url := some candidateUrl }])
        else
          (none, [{ step := label, action := verifyAction, result := "fail"
                  , detail := some verification.explanation
                  , url := some candidateUrl }])

/-- Outcome of a whole verification loop: the first accepted payload (if
any), how many candidates were entered, and the audit steps appended. -/
structure LoopResult where
  found : Option FoundPayload
  checked : Nat
  steps : List Step
deriving Repr, DecidableEq

/-- The candidate verification loop (`for candidate of candidates`),
parameterised by the step-label prefix and action names of the calling
strategy; `checkedSoFar` carries the running `candidatesChecked` counter
used in step labels.  Stops at the first accepted candidate. -/
def verifyCandidates (pfx checkAction verifyAction : String) :
    List (String × CandidateFate) → Nat → LoopResult
  | [], _ => { found := none, checked := 0, steps := [] }
  | (url, fate) :: rest, checkedSoFar =>
    let idx := checkedSoFar + 1
    let label := pfx ++ "-" ++ Nat.repr idx
    let r := checkCandidate label checkAction verifyAction url fate
    match r.1 with
    | some payload => { found := some payload, checked := 1, steps := r.2 }
    | none =>
      let tail := verifyCandidates pfx checkAction verifyAction rest idx
      { found := tail.found, checked := tail.checked + 1
      , steps := r.2 ++ tail.steps }

/-- The two-phase acceptance condition: first navigation completes with a
good status, the oracle answers `isMatch`, and the validation
re-navigation completes with a good status. -/
def fateAccepted (fate : CandidateFate) : Bool :=
  match fate.nav1, fate.oracle, fate.nav2 with
  | .ok s1, .ok v, .ok s2 => !navFailed s1 && v.hasNews && !navFailed s2
  | _, _, _ => false

-- ===================================================================
-- MARK: Discovery orchestrator (discoverNewsPage)
-- ===================================================================

/-- Company input `{name, website}` (ticker omitted, unused). -/
structure CompanyInput where
  name : String
  website : String
deriving Repr, DecidableEq

/-- `SearchDiscoveryResult` (types.ts): what discoverViaSearch returns. -/
structure SearchStrategyOutcome where
  success : Bool
  newsPageUrl : Option String
  latestDate : Option String
  searchResultsCount : Nat
  candidatesChecked : Nat
  error : Option String
deriving Repr, DecidableEq

/-- `HomepageDiscoveryResult` (types.ts): what discoverViaHomepage and
discoverViaSiteSearch return. -/
structure StrategyOutcome where
  success : Bool
  newsPageUrl : Option String
  latestDate : Option String
  candidatesChecked : Nat
  error : Option String
deriving Repr, DecidableEq

/-- `DiscoveryResult` (types.ts).  `durationMs` (wall clock) is not
modelled. -/
structure DiscoveryResult where
  companyName : String
  companyWebsite : String
  success : Bool
  newsPageUrl : Option String
  latestDate : Option String
  error : Option String
  searchResultsCount : Nat
  candidatesChecked : Nat
  discoveryMethod : Option String
  steps : List Step
deriving Repr, DecidableEq

/-- The `addStep(steps, 'ERR', 'Discovery error', 'fail', errorMessage)`
record of the orchestrator's catch block. -/
def errStep (msg : String) : Step :=
  { step := "ERR", action := "Discovery error", result := "fail"
  , detail := some msg, url := none }

/-- The catch-block result: failure as data, with the steps accumulated
so far plus the `ERR` step. -/
def caughtResult (company : CompanyInput) (msg : String) (steps : List Step) :
    DiscoveryResult :=
  { companyName := company.name, companyWebsite := company.website
  , success := false, newsPageUrl := none, latestDate := none
  , error := some msg, searchResultsCount := 0, candidatesChecked := 0
  , discoveryMethod := none, steps := steps ++ [errStep msg] }

/-- The top-level orchestrator `discoverNewsPage`, with each strategy's
run represented by the audit steps it appended and either its returned
outcome or the message of the exception it threw.  Strategies run in
fixed order — search, homepage, site search — each entered only if the
previous one returned without success; any thrown exception is caught and
converted into a failure `DiscoveryResult`. -/
def discoverNewsPage (company : CompanyInput)
    (searchRun : List Step × Except String SearchStrategyOutcome)
    (homepageRun : List Step × Except String StrategyOutcome)
    (siteSearchRun : List Step × Except String StrategyOutcome) :
    DiscoveryResult :=
  match searchRun.2 with
  | .error msg => caughtResult company msg searchRun.1
  | .ok searchResult =>
    if searchResult.success then
      { companyName := company.name, companyWebsite := company.website
      , success := true, newsPageUrl := searchResult.newsPageUrl
      , latestDate := searchResult.latestDate, error := none
      , searchResultsCount := searchResult.searchResultsCount
      , candidatesChecked := searchResult.candidatesChecked
      , discoveryMethod := some "search", steps := searchRun.1 }
    else
      match homepageRun.2 with
      | .error msg => caughtResult company msg (searchRun.1 ++ homepageRun.1)
      | .ok homepageResult =>
        if homepageResult.success then
          { companyName := company.name, companyWebsite := company.website
          , success := true, newsPageUrl := homepageResult.newsPageUrl
          , latestDate := homepageResult.latestDate, error := none
          , searchResultsCount := searchResult.searchResultsCount
          , candidatesChecked := searchResult.candidatesChecked +
              homepageResult.candidatesChecked
          , discoveryMethod := some "homepage"
          , steps := searchRun.1 ++ homepageRun.1 }
        else
          match siteSearchRun.2 with
          | .error msg =>
            caughtResult company msg (searchRun.1 ++ homepageRun.1 ++ siteSearchRun.1)
          | .ok siteSearchResult =>
            if siteSearchResult.success then
              { companyName := company.name, companyWebsite := company.website
              , success := true, newsPageUrl := siteSearchResult.newsPageUrl
              , latestDate := siteSearchResult.latestDate, error := none
              , searchResultsCount := searchResult.searchResultsCount
              , candidatesChecked := searchResult.candidatesChecked +
                  homepageResult.candidatesChecked +
                  siteSearchResult.candidatesChecked
              , discoveryMethod := some "site-search"
              , steps := searchRun.1 ++ homepageRun.1 ++ siteSearchRun.1 }
            else
              { companyName := company.name, companyWebsite := company.website
              , success := false, newsPageUrl := none, latestDate := none
              , error := some "No valid press release pages found (checked search results + homepage + site search)"
              , searchResultsCount := searchResult.searchResultsCount
              , candidatesChecked := searchResult.candidatesChecked +
                  homepageResult.candidatesChecked +
                  siteSearchResult.candidatesChecked
              , discoveryMethod := none
              , steps := searchRun.1 ++ homepageRun.1 ++ siteSearchRun.1 }

-- ===================================================================
-- MARK: Per-domain result cache writes (stagehand-s3-persistence.ts)
-- ===================================================================

/-- The fields of one element of `uploadDiscoveryResults`' argument that
the per-domain cache loop reads. -/
structure UploadResultEntry where
  companyName : String
  companyWebsite : String
  success : Bool
  newsPageUrl : Option String
  latestDate : Option String
  discoveryMethod : Option String
deriving Repr, DecidableEq

/-- The per-domain cache record written to
`${resultsPrefix}/${domain}.json` (session/model metadata omitted). -/
structure DomainCacheEntry where
  domain : String
  companyName : String
  newsPageUrl : String
  latestDate : Option String
  discoveryMethod : Option String
deriving Repr, DecidableEq

/-- JS truthiness of a `string | null` value. -/
def truthyStr : Option String → Bool
  | none => false
  | some s => s ≠ ""

/-- The cache key of a result's domain:
`${resultsPrefix}/${website.replace(/^www\./, '').toLowerCase()}.json`. -/
def domainCacheKey (resultsPfx : String) (companyWebsite : String) : String :=
  resultsPfx ++ "/" ++ lowerStr (stripWww companyWebsite) ++ ".json"

/-- The per-domain cache writes performed by `uploadDiscoveryResults`'
final loop: one `(key, entry)` per result with `success && newsPageUrl`
truthy, in order; every other result writes nothing. -/
def perDomainCacheWrites (resultsPfx : String)
    (results : List UploadResultEntry) : List (String × DomainCacheEntry) :=
  results.filterMap fun result =>
    if result.success && truthyStr result.newsPageUrl then
      let domain := lowerStr (stripWww result.companyWebsite)
      some (domainCacheKey resultsPfx result.companyWebsite,
            { domain := domain
            , companyName := result.companyName
            , newsPageUrl := result.newsPageUrl.getD ""
            , latestDate := result.latestDate
            , discoveryMethod := result.discoveryMethod })
    else none

-- ===================================================================
-- MARK: Shared concrete fixtures
-- ===================================================================

/-- A candidate fate whose navigations succeed but whose oracle verdict is
negative: the loop records `fail` and moves on. -/
def rejectFate : CandidateFate :=
  { nav1 := .ok (some 200)
  , oracle := .ok { hasNews := false, latestDate := none
                  , explanation := "Single article, not a listing" }
  , nav2 := .ok (some 200) }

/-- A candidate fate that passes both navigations and the oracle. -/
def acceptFate : CandidateFate :=
  { nav1 := .ok (some 200)
  , oracle := .ok { hasNews := true, latestDate := some "2024-03-15"
                  , explanation := "Listing of dated press releases" }
  , nav2 := .ok (some 200) }

-- ===================================================================
-- MARK: Helper lemmas
-- ===================================================================

lemma mem_insertUnique {l : List String} {x y : String}
    (h : y ∈ insertUnique l x) : y ∈ l ∨ y = x := by
  unfold insertUnique at h
  split at h
  · exact Or.inl h
  · rcases List.mem_append.mp h with h2 | h2
    · exact Or.inl h2
    · exact Or.inr (by simpa using h2)

lemma mem_foldl_insertUnique {acc : List String} {urls : List String} {y : String}
    (h : y ∈ urls.foldl insertUnique acc) : y ∈ acc ∨ y ∈ urls := by
  induction urls generalizing acc with
  | nil => exact Or.inl h
  | cons u rest ih =>
    simp only [List.foldl_cons] at h
    rcases ih h with h2 | h2
    · rcases mem_insertUnique h2 with h3 | h3
      · exact Or.inl h3
      · exact Or.inr (by simp [h3])
    · exact Or.inr (List.mem_cons_of_mem _ h2)

lemma mem_dedupeByUrlAux {seen : List String} {links : List Link} {l : Link}
    (h : l ∈ dedupeByUrlAux seen links) : l ∈ links := by
  induction links generalizing seen with
  | nil => simp [dedupeByUrlAux] at h
  | cons x rest ih =>
    unfold dedupeByUrlAux at h
    split at h
    · exact List.mem_cons_of_mem _ (ih h)
    · rcases List.mem_cons.mp h with h2 | h2
      · simp [h2]
      · exact List.mem_cons_of_mem _ (ih h2)

lemma mem_dedupeByUrl {links : List Link} {l : Link}
    (h : l ∈ dedupeByUrl links) : l ∈ links :=
  mem_dedupeByUrlAux h

lemma categorize_elems {rs : List SearchResult} {r : SearchResult}
    (h : r ∈ (categorizeUrls rs).1 ∨ r ∈ (categorizeUrls rs).2) : r ∈ rs := by
  rcases h with h | h <;> exact (List.mem_filter.mp h).1

-- ===================================================================
-- MARK: C10 — categorizeUrls is a total partition
-- ===================================================================

/-- C10: `categorizeUrls` is total and partitions its input: the two
output lists together are a permutation of the input (no element dropped
or duplicated), the lists are disjoint (each element is placed in exactly
one side), and an element whose URL fails to parse is placed in
`listingPages` rather than discarded. -/
theorem categorizeUrls_partition (rs : List SearchResult) :
    ((categorizeUrls rs).1 ++ (categorizeUrls rs).2).Perm rs ∧
    (∀ r, r ∈ (categorizeUrls rs).1 → r ∉ (categorizeUrls rs).2) ∧
    (∀ r, r ∈ rs → parseUrl r.url = none → r ∈ (categorizeUrls rs).1) := by
  refine ⟨?_, ?_, ?_⟩
  · unfold categorizeUrls
    exact List.perm_append_comm.trans (List.filter_append_perm _ rs)
  · intro r h1 h2
    have e1 := (List.mem_filter.mp h1).2
    have e2 := (List.mem_filter.mp h2).2
    simp at e1
    rw [e1] at e2
    exact Bool.noConfusion e2
  · intro r hr hparse
    refine List.mem_filter.mpr ⟨hr, ?_⟩
    unfold isSpecificArticle
    rw [hparse]
    rfl

/-- Witness for C10 at a concrete input: a result with an unparseable URL
lands in the listing side. -/
theorem categorizeUrls_partition_witness :
    ({ title := "t", url := "not a url", snippet := "s" } : SearchResult) ∈
      (categorizeUrls
        [{ title := "t", url := "not a url", snippet := "s" }]).1 :=
  (categorizeUrls_partition
    [{ title := "t", url := "not a url", snippet := "s" }]).2.2 _
    (by decide) (by decide)

-- ===================================================================
-- MARK: C4 — the generic-name override wins
-- ===================================================================

/-- C4: a link whose URL parses and whose lowercased final path segment
exactly equals one of the known generic listing-page names is classified
as a listing page, regardless of any article signal (year in path, slug
shape, document-path markers, announcement-style title). -/
theorem categorizeUrls_generic_override (r : SearchResult) (u : ParsedUrl)
    (hparse : parseUrl r.url = some u)
    (hgen : genericNames.contains
      (lowerStr (((splitSlash u.pathname).getLast?).getD "")) = true) :
    isSpecificArticle r = false ∧
    ∀ rs, r ∈ rs → r ∈ (categorizeUrls rs).1 := by
  have hfalse : isSpecificArticle r = false := by
    unfold isSpecificArticle
    rw [hparse]
    simp only []
    rw [hgen]
    simp
  refine ⟨hfalse, fun rs hr => ?_⟩
  exact List.mem_filter.mpr ⟨hr, by simp [hfalse]⟩

/-- Witness for C4: `/2024/news` has a year in its path (an article
signal), yet the generic final segment `news` forces the listing side. -/
theorem categorizeUrls_generic_override_witness :
    isSpecificArticle
      { title := "Acme Announces Q3 Results"
      , url := "https://acme.com/2024/news", snippet := "" } = false ∧
    ({ title := "Acme Announces Q3 Results"
     , url := "https://acme.com/2024/news", snippet := "" } : SearchResult) ∈
      (categorizeUrls
        [{ title := "Acme Announces Q3 Results"
         , url := "https://acme.com/2024/news", snippet := "" }]).1 := by
  have h := categorizeUrls_generic_override
    { title := "Acme Announces Q3 Results"
    , url := "https://acme.com/2024/news", snippet := "" }
    { scheme := "https", host := "acme.com", hostname := "acme.com"
    , pathname := "/2024/news" } (by decide) (by decide)
  exact ⟨h.1, h.2 _ (by decide)⟩

-- ===================================================================
-- MARK: C9 — normalizeUrl (corrected: protocol-relative mishandled)
-- ===================================================================

/-- C9 counterexample: a protocol-relative URL (`//host/...`) is not
resolved against the base's scheme to the referenced host; `normalizeUrl`
concatenates it onto the base as if it were a root-relative path. -/
theorem normalizeUrl_protocol_relative_counterexample :
    normalizeUrl "//cdn.example.org/lib.js" "https://acme.com" =
      some "https://acme.com//cdn.example.org/lib.js" ∧
    normalizeUrl "//cdn.example.org/lib.js" "https://acme.com" ≠
      some "https://cdn.example.org/lib.js" := by decide

/-- C9 (amended): anchors (`#...`) yield `null`; any URL starting with
`'/'` — including protocol-relative `"//..."` URLs, which are therefore
NOT resolved to the other host — is concatenated directly onto the base;
other non-`http(s)`-prefixed strings become `base + '/' + url`; absolute
`http(s)` URLs are returned unchanged. -/
theorem normalizeUrl_spec (url base : String) :
    (strStartsWith url "#" = true → normalizeUrl url base = none) ∧
    (strStartsWith url "#" = false → strStartsWith url "/" = true →
      normalizeUrl url base = some (base ++ url)) ∧
    (strStartsWith url "#" = false → strStartsWith url "/" = false →
      strStartsWith url "http://" = false → strStartsWith url "https://" = false →
      normalizeUrl url base = some (base ++ "/" ++ url)) ∧
    (strStartsWith url "#" = false → strStartsWith url "/" = false →
      (strStartsWith url "http://" = true ∨ strStartsWith url "https://" = true) →
      normalizeUrl url base = some url) := by
  have hne : strStartsWith url "#" = false → url ≠ "#" := by
    intro h he
    rw [he] at h
    exact absurd h (by decide)
  refine ⟨?_, ?_, ?_, ?_⟩
  · intro h
    simp [normalizeUrl, h]
  · intro h0 h1
    simp [normalizeUrl, h0, h1, hne h0]
  · intro h0 h1 h2 h3
    simp [normalizeUrl, h0, h1, h2, h3, hne h0]
  · intro h0 h1 h23
    rcases h23 with h2 | h2 <;> simp [normalizeUrl, h0, h1, h2, hne h0]

/-- Witness for C9 at concrete inputs: one application per behaviour
case. -/
theorem normalizeUrl_spec_witness :
    normalizeUrl "#top" "https://acme.com" = none ∧
    normalizeUrl "/news" "https://acme.com" = some "https://acme.com/news" ∧
    normalizeUrl "media" "https://acme.com" = some "https://acme.com/media" ∧
    normalizeUrl "https://acme.com/press" "https://acme.com" =
      some "https://acme.com/press" :=
  ⟨(normalizeUrl_spec "#top" "https://acme.com").1 (by decide),
   (normalizeUrl_spec "/news" "https://acme.com").2.1 (by decide) (by decide),
   (normalizeUrl_spec "media" "https://acme.com").2.2.1 (by decide) (by decide)
     (by decide) (by decide),
   (normalizeUrl_spec "https://acme.com/press" "https://acme.com").2.2.2
     (by decide) (by decide) (Or.inr (by decide))⟩

-- ===================================================================
-- MARK: C8 — per-domain cache entries only for successful results
-- ===================================================================

/-- C8: a per-domain cache entry is written only for a result with
`success = true` and a truthy (hence non-null) `newsPageUrl`; a batch of
failed discoveries writes no per-domain entry at all, so a failing
domain's cache key is left untouched. -/
theorem perDomainCacheWrites_only_success (resultsPfx : String)
    (results : List UploadResultEntry) :
    (∀ kv ∈ perDomainCacheWrites resultsPfx results,
      ∃ r ∈ results, r.success = true ∧ r.newsPageUrl ≠ none ∧
        kv.1 = domainCacheKey resultsPfx r.companyWebsite) ∧
    (∀ failed : List UploadResultEntry, (∀ r ∈ failed, r.success = false) →
      perDomainCacheWrites resultsPfx failed = []) := by
  constructor
  · intro kv hkv
    unfold perDomainCacheWrites at hkv
    rcases List.mem_filterMap.mp hkv with ⟨r, hr, heq⟩
    by_cases hc : (r.success && truthyStr r.newsPageUrl) = true
    · refine ⟨r, hr, (Bool.and_eq_true _ _ |>.mp hc).1, ?_, ?_⟩
      · have ht := (Bool.and_eq_true _ _ |>.mp hc).2
        cases hnp : r.newsPageUrl with
        | none => rw [hnp] at ht; exact absurd ht (by decide)
        | some s => exact fun hcon => Option.noConfusion hcon
      · rw [if_pos hc] at heq
        injection heq with heq2
        rw [← heq2]
    · rw [if_neg hc] at heq
      exact Option.noConfusion heq
  · intro failed hfail
    unfold perDomainCacheWrites
    refine List.filterMap_eq_nil_iff.mpr fun r hr => ?_
    rw [hfail r hr]
    rfl

/-- Witness for C8: a mixed batch writes exactly the entry of its
successful result, and an all-failed batch writes nothing. -/
theorem perDomainCacheWrites_only_success_witness :
    (∀ kv ∈ perDomainCacheWrites "results-cache"
        [{ companyName := "Acme", companyWebsite := "www.Acme.com"
         , success := true, newsPageUrl := some "https://acme.com/news"
         , latestDate := some "2024-03-15", discoveryMethod := some "search" },
         { companyName := "Beta", companyWebsite := "beta.com"
         , success := false, newsPageUrl := none
         , latestDate := none, discoveryMethod := none }],
      ∃ r ∈ ([{ companyName := "Acme", companyWebsite := "www.Acme.com"
              , success := true, newsPageUrl := some "https://acme.com/news"
              , latestDate := some "2024-03-15", discoveryMethod := some "search" },
              { companyName := "Beta", companyWebsite := "beta.com"
              , success := false, newsPageUrl := none
              , latestDate := none, discoveryMethod := none }] : List UploadResultEntry),
        r.success = true ∧ r.newsPageUrl ≠ none ∧
          kv.1 = domainCacheKey "results-cache" r.companyWebsite) ∧
    perDomainCacheWrites "results-cache"
      [{ companyName := "Beta", companyWebsite := "beta.com"
       , success := false, newsPageUrl := none
       , latestDate := none, discoveryMethod := none }] = [] :=
  ⟨(perDomainCacheWrites_only_success "results-cache" _).1,
   (perDomainCacheWrites_only_success "results-cache" []).2 _ (by decide)⟩

-- ===================================================================
-- MARK: Verification-loop lemmas
-- ===================================================================

lemma checkCandidate_found_none {fate : CandidateFate}
    (h : fateAccepted fate = false) (label ca va url : String) :
    (checkCandidate label ca va url fate).1 = none := by
  obtain ⟨nav1, oracle, nav2⟩ := fate
  cases nav1 with
  | error e => rfl
  | ok s =>
    cases oracle with
    | error e =>
      by_cases hs : navFailed s = true <;> simp [checkCandidate, hs]
    | ok v =>
      cases nav2 with
      | error e =>
        by_cases hs : navFailed s = true
        · simp [checkCandidate, hs]
        · by_cases hv : v.hasNews = true <;> simp [checkCandidate, hs, hv]
      | ok s2 =>
        simp only [fateAccepted] at h
        by_cases hs : navFailed s = true
        · simp [checkCandidate, hs]
        · by_cases hv : v.hasNews = true
          · have hs2 : navFailed s2 = true := by
              simp [hs, hv] at h
              exact h
            simp [checkCandidate, hs, hv, hs2]
          · simp [checkCandidate, hs, hv]

lemma checkCandidate_accepted {fate : CandidateFate}
    (h : fateAccepted fate = true) :
    ∃ s1 v s2, fate.nav1 = .ok s1 ∧ fate.oracle = .ok v ∧ fate.nav2 = .ok s2 ∧
      navFailed s1 = false ∧ v.hasNews = true ∧ navFailed s2 = false ∧
      ∀ label ca va url, checkCandidate label ca va url fate =
        (some { url := url, latestDate := v.latestDate },
         [{ step := label, action := va, result := "success"
          , detail := some v.explanation, url := some url }]) := by
  obtain ⟨nav1, oracle, nav2⟩ := fate
  cases nav1 with
  | error e => exact absurd h (by simp [fateAccepted])
  | ok s =>
    cases oracle with
    | error e => exact absurd h (by simp [fateAccepted])
    | ok v =>
      cases nav2 with
      | error e => exact absurd h (by simp [fateAccepted])
      | ok s2 =>
        simp only [fateAccepted, Bool.and_eq_true, Bool.not_eq_true'] at h
        refine ⟨s, v, s2, rfl, rfl, rfl, h.1.1, h.1.2, h.2, ?_⟩
        intro label ca va url
        simp [checkCandidate, h.1.1, h.1.2, h.2]

lemma verifyCandidates_cons (pfx ca va url : String) (fate : CandidateFate)
    (rest : List (String × CandidateFate)) (k : Nat) :
    verifyCandidates pfx ca va ((url, fate) :: rest) k =
      (let r := checkCandidate (pfx ++ "-" ++ Nat.repr (k + 1)) ca va url fate
       match r.1 with
       | some payload => { found := some payload, checked := 1, steps := r.2 }
       | none =>
         let tail := verifyCandidates pfx ca va rest (k + 1)
         { found := tail.found, checked := tail.checked + 1
         , steps := r.2 ++ tail.steps }) := rfl

lemma verifyCandidates_cons_none (pfx ca va url : String) (fate : CandidateFate)
    (rest : List (String × CandidateFate)) (k : Nat)
    (h : (checkCandidate (pfx ++ "-" ++ Nat.repr (k + 1)) ca va url fate).1 = none) :
    verifyCandidates pfx ca va ((url, fate) :: rest) k =
      { found := (verifyCandidates pfx ca va rest (k + 1)).found
      , checked := (verifyCandidates pfx ca va rest (k + 1)).checked + 1
      , steps := (checkCandidate (pfx ++ "-" ++ Nat.repr (k + 1)) ca va url fate).2
          ++ (verifyCandidates pfx ca va rest (k + 1)).steps } := by
  rw [verifyCandidates_cons]
  simp only [h]

lemma verifyCandidates_reject_run (pfx ca va : String)
    (l1 : List (String × CandidateFate))
    (h1 : ∀ p ∈ l1, fateAccepted p.2 = false)
    (c : String) (fate : CandidateFate) (hacc : fateAccepted fate = true)
    (l2 : List (String × CandidateFate)) (k : Nat) :
    ∃ v, fate.oracle = .ok v ∧ v.hasNews = true ∧
    (verifyCandidates pfx ca va (l1 ++ (c, fate) :: l2) k).found =
      some { url := c, latestDate := v.latestDate } ∧
    (verifyCandidates pfx ca va (l1 ++ (c, fate) :: l2) k).checked =
      l1.length + 1 ∧
    verifyCandidates pfx ca va (l1 ++ (c, fate) :: l2) k =
      verifyCandidates pfx ca va (l1 ++ [(c, fate)]) k := by
  obtain ⟨s1, v, s2, hnav1, horacle, hnav2, hs1, hv, hs2, heq⟩ :=
    checkCandidate_accepted hacc
  refine ⟨v, horacle, hv, ?_⟩
  induction l1 generalizing k with
  | nil =>
    simp only [List.nil_append, List.length_nil]
    rw [verifyCandidates_cons, verifyCandidates_cons]
    simp [heq]
  | cons p l1 ih =>
    obtain ⟨purl, pfate⟩ := p
    have hp : fateAccepted pfate = false :=
      h1 (purl, pfate) (List.mem_cons_self _ _)
    have hnone := checkCandidate_found_none hp
      (pfx ++ "-" ++ Nat.repr (k + 1)) ca va purl
    have h1' : ∀ p ∈ l1, fateAccepted p.2 = false :=
      fun p hp2 => h1 p (List.mem_cons_of_mem _ hp2)
    rw [List.cons_append, verifyCandidates_cons_none _ _ _ _ _ _ _ hnone,
        List.cons_append, verifyCandidates_cons_none _ _ _ _ _ _ _ hnone]
    obtain ⟨f1, c1, e1⟩ := ih h1' (k + 1)
    refine ⟨by simpa using f1, by simp [c1], ?_⟩
    rw [e1]

-- ===================================================================
-- MARK: C3 — two-phase acceptance with first-success short-circuit
-- ===================================================================

/-- C3: a candidate is accepted only when the oracle answers `isMatch`
and the independent re-navigation succeeds with status < 400
(`fateAccepted`); on the first such candidate the loop stops with that
candidate's URL and extracted date — the result is unchanged if every
later candidate is removed, and exactly the previous failures plus this
candidate were entered; and when the second navigation fails, a `fail`
step is recorded and the loop continues with the next candidate. -/
theorem verification_protocol_first_success :
    (∀ label ca va url fate,
      (checkCandidate label ca va url fate).1 ≠ none →
      fateAccepted fate = true) ∧
    (∀ pfx ca va (l1 : List (String × CandidateFate)),
      (∀ p ∈ l1, fateAccepted p.2 = false) →
      ∀ c fate, fateAccepted fate = true →
      ∀ l2 k, ∃ v, fate.oracle = .ok v ∧ v.hasNews = true ∧
        (verifyCandidates pfx ca va (l1 ++ (c, fate) :: l2) k).found =
          some { url := c, latestDate := v.latestDate } ∧
        (verifyCandidates pfx ca va (l1 ++ (c, fate) :: l2) k).checked =
          l1.length + 1 ∧
        verifyCandidates pfx ca va (l1 ++ (c, fate) :: l2) k =
          verifyCandidates pfx ca va (l1 ++ [(c, fate)]) k) ∧
    (∀ pfx ca va (c : String) (fate : CandidateFate) s1 v s2 rest k,
      fate.nav1 = .ok s1 → navFailed s1 = false →
      fate.oracle = .ok v → v.hasNews = true →
      fate.nav2 = .ok s2 → navFailed s2 = true →
      verifyCandidates pfx ca va ((c, fate) :: rest) k =
        { found := (verifyCandidates pfx ca va rest (k + 1)).found
        , checked := (verifyCandidates pfx ca va rest (k + 1)).checked + 1
        , steps := { step := pfx ++ "-" ++ Nat.repr (k + 1), action := va
                   , result := "fail"
                   , detail := some ("Validation failed: HTTP " ++ statusTextRaw s2)
                   , url := some c } ::
            (verifyCandidates pfx ca va rest (k + 1)).steps }) := by
  refine ⟨?_, ?_, ?_⟩
  · intro label ca va url fate h
    by_cases hacc : fateAccepted fate = true
    · exact hacc
    · exact absurd (checkCandidate_found_none
        (Bool.not_eq_true _ ▸ Bool.of_not_eq_true hacc) label ca va url) h
  · intro pfx ca va l1 h1 c fate hacc l2 k
    exact verifyCandidates_reject_run pfx ca va l1 h1 c fate hacc l2 k
  · intro pfx ca va c fate s1 v s2 rest k hnav1 hs1 horacle hv hnav2 hs2
    obtain ⟨n1, orc, n2⟩ := fate
    simp only at hnav1 horacle hnav2
    subst hnav1; subst horacle; subst hnav2
    have hcc : checkCandidate (pfx ++ "-" ++ Nat.repr (k + 1)) ca va c
        ⟨.ok s1, .ok v, .ok s2⟩ =
        (none, [{ step := pfx ++ "-" ++ Nat.repr (k + 1), action := va
                , result := "fail"
                , detail := some ("Validation failed: HTTP " ++ statusTextRaw s2)
                , url := some c }]) := by
      simp [checkCandidate, hs1, hv, hs2]
    rw [verifyCandidates_cons_none _ _ _ _ _ _ _ (by rw [hcc]), hcc]
    rfl

/-- Witness for C3: with a rejected first candidate, an accepted second
and a third never reached, the loop returns the second candidate's URL
and date. -/
theorem verification_protocol_first_success_witness :
    (verifyCandidates "1D" "Check candidate" "Verify candidate"
      [("https://acme.com/media", rejectFate),
       ("https://acme.com/news", acceptFate),
       ("https://acme.com/press", rejectFate)] 0).found =
      some { url := "https://acme.com/news", latestDate := some "2024-03-15" } := by
  obtain ⟨v, hv, _, hfound, _, _⟩ :=
    verification_protocol_first_success.2.1 "1D" "Check candidate"
      "Verify candidate" [("https://acme.com/media", rejectFate)] (by decide)
      "https://acme.com/news" acceptFate (by decide)
      [("https://acme.com/press", rejectFate)] 0
  have hv2 : Except.ok (ε := String)
      ({ hasNews := true, latestDate := some "2024-03-15"
       , explanation := "Listing of dated press releases" } : Verification) =
      Except.ok v := hv
  rw [← Except.ok.inj hv2] at hfound
  exact hfound

-- ===================================================================
-- MARK: C5 — navigation failure: skip step, oracle not invoked
-- ===================================================================

/-- C5: when the first navigation yields an absent/zero status or one
≥ 400, the iteration records exactly one `skip` step and accepts nothing;
the outcome does not depend on the oracle or second-navigation fields (so
the oracle is never consulted); and the loop continues with the next
candidate, the failure never being fatal. -/
theorem verification_nav_failure_skip (pfx ca va c : String)
    (fate : CandidateFate) (s : Option Nat)
    (rest : List (String × CandidateFate)) (k : Nat)
    (hnav1 : fate.nav1 = .ok s) (hs : navFailed s = true) :
    (∀ label, checkCandidate label ca va c fate =
      (none, [{ step := label, action := ca, result := "skip"
              , detail := some ("HTTP " ++ statusText s), url := some c }])) ∧
    (∀ (label : String) (fate2 : CandidateFate), fate2.nav1 = .ok s →
      checkCandidate label ca va c fate2 = checkCandidate label ca va c fate) ∧
    verifyCandidates pfx ca va ((c, fate) :: rest) k =
      { found := (verifyCandidates pfx ca va rest (k + 1)).found
      , checked := (verifyCandidates pfx ca va rest (k + 1)).checked + 1
      , steps := { step := pfx ++ "-" ++ Nat.repr (k + 1), action := ca
                 , result := "skip", detail := some ("HTTP " ++ statusText s)
                 , url := some c } ::
          (verifyCandidates pfx ca va rest (k + 1)).steps } := by
  have haux : ∀ (label : String) (f2 : CandidateFate), f2.nav1 = .ok s →
      checkCandidate label ca va c f2 =
        (none, [{ step := label, action := ca, result := "skip"
                , detail := some ("HTTP " ++ statusText s), url := some c }]) := by
    intro label f2 h2
    obtain ⟨n1, orc, n2⟩ := f2
    simp only at h2
    subst h2
    simp [checkCandidate, hs]
  refine ⟨fun label => haux label fate hnav1, ?_, ?_⟩
  · intro label fate2 h2
    rw [haux label fate2 h2, haux label fate hnav1]
  · rw [verifyCandidates_cons_none _ _ _ _ _ _ _
      (by rw [haux _ fate hnav1]), haux _ fate hnav1]
    rfl

/-- Witness for C5: a 404 on the first navigation of the first candidate
records a skip step and the loop moves on to (and here accepts) the
second candidate. -/
theorem verification_nav_failure_skip_witness :
    (verifyCandidates "1D" "Check candidate" "Verify candidate"
      [("https://acme.com/dead", { nav1 := .ok (some 404)
                                 , oracle := rejectFate.oracle
                                 , nav2 := rejectFate.nav2 }),
       ("https://acme.com/news", acceptFate)] 0).steps =
      [{ step := "1D-1", action := "Check candidate", result := "skip"
       , detail := some "HTTP 404", url := some "https://acme.com/dead" },
       { step := "1D-2", action := "Verify candidate", result := "success"
       , detail := some "Listing of dated press releases"
       , url := some "https://acme.com/news" }] := by
  have h := (verification_nav_failure_skip "1D" "Check candidate"
    "Verify candidate" "https://acme.com/dead"
    { nav1 := .ok (some 404), oracle := rejectFate.oracle
    , nav2 := rejectFate.nav2 } (some 404)
    [("https://acme.com/news", acceptFate)] 0 (by decide) (by decide)).2.2
  rw [h]
  decide

-- ===================================================================
-- MARK: C7 — failures are data, exceptions never propagate
-- ===================================================================

/-- C7: `discoverNewsPage` is a total function into `DiscoveryResult`; a
strategy that throws (at any of the three stages) yields a result with
`success = false`, a populated `error`, and the steps accumulated so far
(followed by the `ERR` audit step) — no exception reaches the caller. -/
theorem discoverNewsPage_catches_all (company : CompanyInput)
    (searchRun : List Step × Except String SearchStrategyOutcome)
    (homepageRun siteSearchRun : List Step × Except String StrategyOutcome)
    (msg : String) :
    (searchRun.2 = .error msg →
      discoverNewsPage company searchRun homepageRun siteSearchRun =
        caughtResult company msg searchRun.1 ∧
      (discoverNewsPage company searchRun homepageRun siteSearchRun).success
        = false ∧
      (discoverNewsPage company searchRun homepageRun siteSearchRun).error
        = some msg ∧
      (discoverNewsPage company searchRun homepageRun siteSearchRun).steps
        = searchRun.1 ++ [errStep msg]) ∧
    (∀ s, searchRun.2 = .ok s → s.success = false →
      homepageRun.2 = .error msg →
      discoverNewsPage company searchRun homepageRun siteSearchRun =
        caughtResult company msg (searchRun.1 ++ homepageRun.1)) ∧
    (∀ s h, searchRun.2 = .ok s → s.success = false →
      homepageRun.2 = .ok h → h.success = false →
      siteSearchRun.2 = .error msg →
      discoverNewsPage company searchRun homepageRun siteSearchRun =
        caughtResult company msg
          (searchRun.1 ++ homepageRun.1 ++ siteSearchRun.1)) := by
  refine ⟨?_, ?_, ?_⟩
  · intro h
    have he : discoverNewsPage company searchRun homepageRun siteSearchRun =
        caughtResult company msg searchRun.1 := by
      unfold discoverNewsPage
      rw [h]
    exact ⟨he, by rw [he]; rfl, by rw [he]; rfl, by rw [he]; rfl⟩
  · intro s hs hfail h
    unfold discoverNewsPage
    rw [hs, h]
    simp [hfail]
  · intro s h hs hsfail hh hhfail hts
    unfold discoverNewsPage
    rw [hs, hh, hts]
    simp [hsfail, hhfail]

/-- Witness for C7: a homepage-stage exception after a failed search
produces a data-level failure result carrying both stages' steps and the
`ERR` step. -/
theorem discoverNewsPage_catches_all_witness :
    discoverNewsPage { name := "Acme", website := "acme.com" }
      ([{ step := "1", action := "DuckDuckGo search", result := "info"
        , detail := none, url := none }],
       .ok { success := false, newsPageUrl := none, latestDate := none
           , searchResultsCount := 0, candidatesChecked := 0
           , error := some "No search results found" })
      ([{ step := "2", action := "Navigate to homepage", result := "info"
        , detail := none, url := none }],
       .error "net::ERR_NAME_NOT_RESOLVED")
      ([], .ok { success := false, newsPageUrl := none, latestDate := none
               , candidatesChecked := 0, error := none }) =
      caughtResult { name := "Acme", website := "acme.com" }
        "net::ERR_NAME_NOT_RESOLVED"
        ([{ step := "1", action := "DuckDuckGo search", result := "info"
          , detail := none, url := none }] ++
         [{ step := "2", action := "Navigate to homepage", result := "info"
          , detail := none, url := none }]) := by
  exact (discoverNewsPage_catches_all _ _ _ _ _).2.1 _ rfl rfl rfl

-- ===================================================================
-- MARK: C6 — ranking never reduces the candidate set
-- ===================================================================

lemma contains_mem {l : List String} {x : String} :
    l.contains x = true ↔ x ∈ l := by
  simp [List.contains_iff_exists_mem_beq]

lemma lookupLast_mem {links : List Link} {u : String} {l : Link}
    (h : lookupLast links u = some l) : l ∈ links ∧ l.url = u := by
  have hmem := List.mem_of_getLast?_eq_some h
  have h2 := List.mem_filter.mp hmem
  exact ⟨h2.1, by simpa using h2.2⟩

lemma lookupLast_isSome {links : List Link} {l : Link}
    (hl : l ∈ links) : ∃ l2, lookupLast links l.url = some l2 := by
  have hmem : l ∈ links.filter (fun l2 => l2.url = l.url) :=
    List.mem_filter.mpr ⟨hl, by simp⟩
  have hne : links.filter (fun l2 => l2.url = l.url) ≠ [] :=
    List.ne_nil_of_mem hmem
  rcases Option.isSome_iff_exists.mp (List.getLast?_isSome.mpr hne) with ⟨l2, h2⟩
  exact ⟨l2, h2⟩

/-- C6: the ranking refinement never reduces (or grows) the set of
candidate URLs — after `reorderByRanking` the URL set equals the URL set
of the filtered links, every candidate missing from the scored set having
been appended; and when the ranking call returns an empty list, or throws
(`none` outcome), the original list is kept in its original order. -/
theorem reorderByRanking_preserves_urls (filteredLinks : List Link)
    (ranking : List RankedItem) :
    (∀ u, u ∈ (reorderByRanking filteredLinks ranking).map (fun l => l.url) ↔
      u ∈ filteredLinks.map (fun l => l.url)) ∧
    reorderByRanking filteredLinks [] = filteredLinks ∧
    (∀ cfg uniq dom, homepageCandidates cfg uniq dom none =
      buildHomepageFilteredLinks uniq dom) := by
  refine ⟨?_, by simp [reorderByRanking], fun cfg uniq dom => rfl⟩
  intro u
  unfold reorderByRanking
  by_cases he : ranking.isEmpty
  · rw [if_pos he]
  · rw [if_neg he]
    constructor
    · intro h
      rcases List.mem_map.mp h with ⟨l, hl, rfl⟩
      rcases List.mem_append.mp hl with h2 | h2
      · rcases List.mem_filterMap.mp h2 with ⟨r, _, hlook⟩
        exact List.mem_map.mpr ⟨l, (lookupLast_mem hlook).1, rfl⟩
      · exact List.mem_map.mpr ⟨l, (List.mem_filter.mp h2).1, rfl⟩
    · intro h
      rcases List.mem_map.mp h with ⟨l, hl, rfl⟩
      by_cases hc : ((sortByScoreDesc ranking).map (fun r => r.url)).contains
          l.url = true
      · rcases List.mem_map.mp (contains_mem.mp hc) with ⟨r, hr, hru⟩
        rcases lookupLast_isSome hl with ⟨l2, hl2⟩
        have hl2m := lookupLast_mem hl2
        refine List.mem_map.mpr ⟨l2, List.mem_append.mpr (Or.inl ?_), hl2m.2⟩
        exact List.mem_filterMap.mpr ⟨r, hr, by rw [hru]; exact hl2⟩
      · refine List.mem_map.mpr ⟨l, List.mem_append.mpr (Or.inr ?_), rfl⟩
        refine List.mem_filter.mpr ⟨hl, ?_⟩
        simp only [Bool.not_eq_true']
        exact Bool.eq_false_iff.mpr hc

/-- Witness for C6: a scored set missing a link does not drop it — the
link's URL is still among the candidates. -/
theorem reorderByRanking_preserves_urls_witness :
    "https://acme.com/news" ∈
      (reorderByRanking [{ text := "News", url := "https://acme.com/news" }]
        [{ url := "https://acme.com/other", score := 9, reason := "r" }]).map
        (fun l => l.url) :=
  ((reorderByRanking_preserves_urls
    [{ text := "News", url := "https://acme.com/news" }]
    [{ url := "https://acme.com/other", score := 9, reason := "r" }]).1
    "https://acme.com/news").mpr (by decide)

-- ===================================================================
-- MARK: C2 — candidate caps (corrected: homepage applies no cap)
-- ===================================================================

/-- C2 counterexample: with `maxCandidatesToCheck = 1` the homepage
strategy still submits and verifies 2 candidates — the cap is never
applied on the homepage path. -/
theorem homepage_cap_counterexample :
    (homepageCandidates { maxSearchResults := 10, maxCandidatesToCheck := 1 }
      [{ text := "News", url := "https://acme.com/news" },
       { text := "Press", url := "https://acme.com/press" }]
      "acme.com" none).length = 2 ∧
    (verifyCandidates "2D" "Check link" "Verify link"
      ((homepageCandidates { maxSearchResults := 10, maxCandidatesToCheck := 1 }
        [{ text := "News", url := "https://acme.com/news" },
         { text := "Press", url := "https://acme.com/press" }]
        "acme.com" none).map (fun l => (l.url, rejectFate))) 0).checked = 2 ∧
    ({ maxSearchResults := 10, maxCandidatesToCheck := 1 } :
      DiscoveryConfig).maxCandidatesToCheck < 2 := by decide

/-- C2 (amended): the search strategy's candidate list and the
site-search strategy's per-term candidate list are capped at
`maxCandidatesToCheck`; the homepage strategy applies no cap at all — its
candidate list is independent of the configured maximum and every ranked
link is submitted to verification. -/
theorem candidate_list_caps :
    (∀ results domain cfg,
      (buildSearchCandidates results domain cfg).length ≤
        cfg.maxCandidatesToCheck) ∧
    (∀ uniqueLinks cfg,
      (siteSearchTermCandidates uniqueLinks cfg).length ≤
        cfg.maxCandidatesToCheck) ∧
    (∀ cfg cfg2 uniq dom outcome,
      homepageCandidates cfg uniq dom outcome =
        homepageCandidates cfg2 uniq dom outcome) := by
  refine ⟨?_, ?_, fun cfg cfg2 uniq dom outcome => rfl⟩
  · intro results domain cfg
    simp only [buildSearchCandidates]
    split
    · simp only [List.length_append, List.length_take]
      omega
    · simp only [List.length_take]
      omega
  · intro uniqueLinks cfg
    simp only [siteSearchTermCandidates, List.length_take]
    omega

-- ===================================================================
-- MARK: C1 — parse/rebuild lemmas
-- ===================================================================

lemma head_drop_takeWhile {α : Type} {p : α → Bool} (l : List α) :
    ∀ c, (l.drop (l.takeWhile p).length).head? = some c → p c = false := by
  induction l with
  | nil => intro c h; simp at h
  | cons x xs ih =>
    intro c h
    by_cases hx : p x = true
    · rw [List.takeWhile_cons_of_pos hx] at h
      simpa using ih c (by simpa using h)
    · rw [List.takeWhile_cons_of_neg (by simp [hx])] at h
      simp at h
      subst h
      exact Bool.eq_false_iff.mpr hx

lemma hostDelim_not_queryHash {d : Char} (hdp : notHostDelim d = false)
    (hq : notQueryHash d = true) : d = '/' := by
  simp only [notHostDelim, Bool.not_eq_false'] at hdp
  simp only [notQueryHash, Bool.not_eq_true'] at hq
  have h2a : (d == '?') = false := by
    cases hval : d == '?' with
    | false => rfl
    | true => rw [hval] at hq; simp at hq
  have h2b : (d == '#') = false := by
    cases hval : d == '#' with
    | false => rfl
    | true => rw [hval] at hq; simp at hq
  cases hc : d == '/' with
  | true => exact eq_of_beq hc
  | false =>
    rw [hc, h2a, h2b] at hdp
    exact absurd hdp (by decide)

lemma pathChars_head {rest2 : List Char}
    (hne : (rest2.drop (rest2.takeWhile notHostDelim).length).takeWhile
      notQueryHash ≠ []) :
    ((rest2.drop (rest2.takeWhile notHostDelim).length).takeWhile
      notQueryHash).head? = some '/' := by
  rcases hd : rest2.drop (rest2.takeWhile notHostDelim).length with _ | ⟨d, ds⟩
  · rw [hd] at hne
    simp at hne
  · have hdp : notHostDelim d = false :=
      head_drop_takeWhile rest2 d (by rw [hd]; rfl)
    by_cases hq : notQueryHash d = true
    · rw [List.takeWhile_cons_of_pos hq, hostDelim_not_queryHash hdp hq]
      rfl
    · rw [hd, List.takeWhile_cons_of_neg (by simp [hq])] at hne
      exact absurd rfl hne

lemma parseUrl_facts {s : String} {u : ParsedUrl} (h : parseUrl s = some u) :
    (∀ c ∈ u.scheme.data, notColon c = true) ∧ u.scheme.data ≠ [] ∧
    (∀ c ∈ u.host.data, notHostDelim c = true) ∧ u.host.data ≠ [] ∧
    u.hostname = String.mk (u.host.data.takeWhile notColon) ∧
    (∀ c ∈ u.pathname.data, notQueryHash c = true) ∧
    u.pathname.data.head? = some '/' := by
  simp only [parseUrl] at h
  split at h
  · exact Option.noConfusion h
  · split at h
    case h_2 => exact Option.noConfusion h
    case h_1 heq0 rest2 heq =>
      split at h
      · exact Option.noConfusion h
      · rename_i hAne hHne
        injection h with h
        subst h
        refine ⟨fun c hc => List.mem_takeWhile_imp hc,
          by simpa [List.isEmpty_iff] using hAne,
          fun c hc => List.mem_takeWhile_imp hc,
          by simpa [List.isEmpty_iff] using hHne,
          rfl, ?_, ?_⟩
        · dsimp only
          split
          · intro c hc
            simp at hc
            subst hc
            decide
          · intro c hc
            exact List.mem_takeWhile_imp hc
        · dsimp only
          split
          case isTrue => rfl
          case isFalse hPne =>
            exact pathChars_head (by simpa [List.isEmpty_iff] using hPne)

lemma parseUrl_rebuild {s : String} {u : ParsedUrl} (h : parseUrl s = some u)
    {path : String} (hpath : ∀ c ∈ path.data, notQueryHash c = true)
    (hhead : path.data.head? = some '/') :
    parseUrl (u.scheme ++ "://" ++ u.host ++ path) =
      some { scheme := u.scheme, host := u.host, hostname := u.hostname
           , pathname := path } := by
  obtain ⟨hA, hAne, hH, hHne, hhn, _, _⟩ := parseUrl_facts h
  obtain ⟨P', hP'⟩ : ∃ P', path.data = '/' :: P' := by
    cases hp : path.data with
    | nil => rw [hp] at hhead; exact Option.noConfusion hhead
    | cons c cs =>
      rw [hp] at hhead
      injection hhead with hc
      exact ⟨cs, by rw [← hc]⟩
  have hdata : (u.scheme ++ "://" ++ u.host ++ path).data =
      u.scheme.data ++ ':' :: '/' :: '/' :: (u.host.data ++ path.data) := by
    simp [String.data_append]
  have h1 : (u.scheme.data ++
      ':' :: '/' :: '/' :: (u.host.data ++ path.data)).takeWhile notColon =
      u.scheme.data := by
    rw [List.takeWhile_append_of_pos hA,
        List.takeWhile_cons_of_neg (by decide), List.append_nil]
  have h2 : (u.host.data ++ path.data).takeWhile notHostDelim =
      u.host.data := by
    rw [List.takeWhile_append_of_pos hH, hP',
        List.takeWhile_cons_of_neg (by decide), List.append_nil]
  have h3 : path.data.takeWhile notQueryHash = path.data :=
    List.takeWhile_eq_self_iff.mpr hpath
  have hAem : u.scheme.data.isEmpty = false := List.isEmpty_eq_false.mpr hAne
  have hHem : u.host.data.isEmpty = false := List.isEmpty_eq_false.mpr hHne
  have hPem : path.data.isEmpty = false :=
    List.isEmpty_eq_false.mpr (by rw [hP']; exact List.cons_ne_nil _ _)
  simp only [parseUrl, hdata, h1, hAem, Bool.false_eq_true, if_false,
    List.drop_left]
  simp only [h2, hHem, Bool.false_eq_true, if_false, List.drop_left, h3, hPem]
  rw [hhn]

lemma splitOnChar_sub {sep : Char} {l seg : List Char}
    (h : seg ∈ splitOnChar sep l) : ∀ c ∈ seg, c ∈ l := by
  induction l generalizing seg with
  | nil =>
    simp only [splitOnChar, List.mem_singleton] at h
    subst h
    simp
  | cons x rest ih =>
    simp only [splitOnChar] at h
    by_cases hx : x = sep
    · rw [if_pos hx] at h
      rcases List.mem_cons.mp h with h2 | h2
      · subst h2
        simp
      · intro c hc
        exact List.mem_cons_of_mem _ (ih h2 c hc)
    · rw [if_neg hx] at h
      rcases hr : splitOnChar sep rest with _ | ⟨h0, t⟩
      · rw [hr] at h
        simp only [List.mem_singleton] at h
        subst h
        intro c hc
        simp only [List.mem_singleton] at hc
        subst hc
        simp
      · rw [hr] at h
        rcases List.mem_cons.mp h with h2 | h2
        · subst h2
          intro c hc
          rcases List.mem_cons.mp hc with h3 | h3
          · subst h3
            simp
          · exact List.mem_cons_of_mem _
              (ih (by rw [hr]; exact List.mem_cons_self _ _) c h3)
        · intro c hc
          exact List.mem_cons_of_mem _
            (ih (by rw [hr]; exact List.mem_cons_of_mem _ h2) c hc)

lemma splitSlash_sub {s : String} {seg : String}
    (h : seg ∈ splitSlash s) : ∀ c ∈ seg.data, c ∈ s.data := by
  unfold splitSlash at h
  rcases List.mem_filterMap.mp h with ⟨l2, hl2, heq⟩
  split at heq
  · exact Option.noConfusion heq
  · injection heq with heq
    subst heq
    exact splitOnChar_sub hl2

lemma joinSlash_chars : ∀ (segs : List String) (c : Char),
    c ∈ (joinSlash segs).data → c = '/' ∨ ∃ seg ∈ segs, c ∈ seg.data
  | [], c, h => by simp [joinSlash] at h
  | [x], c, h => Or.inr ⟨x, by simp, h⟩
  | x :: y :: t, c, h => by
    simp only [joinSlash, String.data_append] at h
    rcases List.mem_append.mp h with h2 | h2
    · rcases List.mem_append.mp h2 with h3 | h3
      · exact Or.inr ⟨x, by simp, h3⟩
      · exact Or.inl (by simpa using h3)
    · rcases joinSlash_chars (y :: t) c h2 with h3 | ⟨seg, hs, hc⟩
      · exact Or.inl h3
      · exact Or.inr ⟨seg, List.mem_cons_of_mem _ hs, hc⟩

lemma rootUrlsOfArticle_parse {article : SearchResult} {r : String}
    (hr : r ∈ rootUrlsOfArticle article) :
    ∃ u u2, parseUrl article.url = some u ∧ parseUrl r = some u2 ∧
      u2.hostname = u.hostname := by
  unfold rootUrlsOfArticle at hr
  rcases hp : parseUrl article.url with _ | u
  · rw [hp] at hr
    simp at hr
  · rw [hp] at hr
    rcases List.mem_filterMap.mp hr with ⟨i, _, heq⟩
    simp only [] at heq
    split at heq
    · injection heq with heq
      subst heq
      have hfacts := parseUrl_facts hp
      have hpathq : ∀ c ∈ ("/" ++
          joinSlash ((splitSlash u.pathname).take i)).data,
          notQueryHash c = true := by
        intro c hc
        rw [String.data_append] at hc
        rcases List.mem_append.mp hc with h3 | h3
        · have : c = '/' := by simpa using h3
          subst this
          decide
        · rcases joinSlash_chars _ c h3 with h4 | ⟨seg, hseg, hcs⟩
          · subst h4
            decide
          · exact hfacts.2.2.2.2.2.1 c
              (splitSlash_sub (List.mem_of_mem_take hseg) c hcs)
      have hpathh : ("/" ++
          joinSlash ((splitSlash u.pathname).take i)).data.head? =
          some '/' := by
        rw [String.data_append]
        rfl
      exact ⟨u, _, rfl, parseUrl_rebuild hp hpathq hpathh, rfl⟩
    · exact Option.noConfusion heq

lemma isUrlOnDomain_parse {s domain : String}
    (h : isUrlOnDomain s domain = true) : ∃ u, parseUrl s = some u := by
  unfold isUrlOnDomain at h
  rcases hp : parseUrl s with _ | u
  · rw [hp] at h
    exact Bool.noConfusion h
  · exact ⟨u, rfl⟩

lemma isUrlOnDomain_congr {r s domain : String} {u u2 : ParsedUrl}
    (hs : parseUrl s = some u) (hr : parseUrl r = some u2)
    (hh : u2.hostname = u.hostname) :
    isUrlOnDomain r domain = isUrlOnDomain s domain := by
  unfold isUrlOnDomain
  rw [hs, hr]
  dsimp only
  rw [hh]

lemma mem_filterNews {results : List SearchResult} {domain : String}
    {r : SearchResult} (h : r ∈ filterNewsRelatedUrls results domain) :
    isUrlOnDomain r.url domain = true := by
  have h2 := (List.mem_filter.mp h).2
  exact ((Bool.and_eq_true _ _).mp h2).1

lemma mem_rootFold {arts : List SearchResult} {acc : List String} {y : String}
    (h : y ∈ arts.foldl
      (fun acc a => (rootUrlsOfArticle a).foldl insertUnique acc) acc) :
    y ∈ acc ∨ ∃ a ∈ arts, y ∈ rootUrlsOfArticle a := by
  induction arts generalizing acc with
  | nil => exact Or.inl h
  | cons a rest ih =>
    simp only [List.foldl_cons] at h
    rcases ih h with h2 | ⟨a2, ha2, hy⟩
    · rcases mem_foldl_insertUnique h2 with h3 | h3
      · exact Or.inl h3
      · exact Or.inr ⟨a, List.mem_cons_self _ _, h3⟩
    · exact Or.inr ⟨a2, List.mem_cons_of_mem _ ha2, hy⟩

lemma extractRootUrls_on_domain {articles : List SearchResult}
    {domain : String}
    (hart : ∀ a ∈ articles, isUrlOnDomain a.url domain = true)
    {c : SearchResult} (hc : c ∈ extractRootUrlsFromArticles articles) :
    isUrlOnDomain c.url domain = true := by
  unfold extractRootUrlsFromArticles at hc
  rcases List.mem_map.mp hc with ⟨url, hurl, hc2⟩
  rcases mem_rootFold hurl with h | ⟨a, ha, hy⟩
  · simp at h
  · have ha2 := hart a (List.mem_of_mem_take ha)
    rcases rootUrlsOfArticle_parse hy with ⟨u, u2, hpu, hpr, hhost⟩
    have : isUrlOnDomain url domain = isUrlOnDomain a.url domain :=
      isUrlOnDomain_congr hpu hpr hhost
    rw [← hc2]
    simp only []
    rw [this]
    exact ha2

lemma categorize_length (rs : List SearchResult) :
    (categorizeUrls rs).1.length + (categorizeUrls rs).2.length = rs.length := by
  have hperm : ((categorizeUrls rs).1 ++ (categorizeUrls rs).2).Perm rs := by
    unfold categorizeUrls
    exact List.perm_append_comm.trans (List.filter_append_perm _ rs)
  have := hperm.length_eq
  simpa [List.length_append] using this

lemma buildSearchCandidates_on_domain {results : List SearchResult}
    {domain : String} {cfg : DiscoveryConfig} {c : SearchResult}
    (hc : c ∈ buildSearchCandidates results domain cfg) :
    isUrlOnDomain c.url domain = true := by
  have hart : ∀ a ∈ (categorizeUrls
      (filterNewsRelatedUrls (completeResults results) domain)).2,
      isUrlOnDomain a.url domain = true :=
    fun a ha => mem_filterNews (categorize_elems (Or.inr ha))
  simp only [buildSearchCandidates] at hc
  split at hc
  · rcases List.mem_append.mp hc with h2 | h2
    · exact mem_filterNews
        (categorize_elems (Or.inl (List.mem_of_mem_take h2)))
    · exact extractRootUrls_on_domain hart (List.mem_of_mem_take h2)
  · exact mem_filterNews
      (categorize_elems (Or.inl (List.mem_of_mem_take hc)))

lemma homepageCandidates_sub {cfg : DiscoveryConfig} {uniq : List Link}
    {dom : String} {outcome : Option (List RankedItem)} {c : Link}
    (hc : c ∈ homepageCandidates cfg uniq dom outcome) :
    c ∈ buildHomepageFilteredLinks uniq dom := by
  rcases outcome with _ | ranking
  · exact hc
  · simp only [homepageCandidates, reorderByRanking] at hc
    split at hc
    · exact hc
    · rcases List.mem_append.mp hc with h2 | h2
      · rcases List.mem_filterMap.mp h2 with ⟨r, _, hlook⟩
        exact (lookupLast_mem hlook).1
      · exact (List.mem_filter.mp h2).1

lemma buildHomepageFilteredLinks_on_domain {uniq : List Link} {dom : String}
    (hne : uniq.filter (homepageLinkFilter dom) ≠ []) {c : Link}
    (hc : c ∈ buildHomepageFilteredLinks uniq dom) :
    isOnDomain c.url dom = true := by
  simp only [buildHomepageFilteredLinks] at hc
  rw [if_neg] at hc
  · rcases List.mem_append.mp hc with h2 | h2 <;>
      rcases List.mem_map.mp h2 with ⟨r, hr, hc2⟩ <;>
      [have hin := categorize_elems (Or.inl hr);
       have hin := categorize_elems (Or.inr hr)] <;>
      · rcases List.mem_map.mp hin with ⟨l, hl, hl2⟩
        have hf := (List.mem_filter.mp hl).2
        have hd := ((Bool.and_eq_true _ _).mp
          ((Bool.and_eq_true _ _).mp hf).1).1
        rw [← hc2]
        show isOnDomain r.url dom = true
        rw [← hl2]
        exact hd
  · intro hemp
    have hlen := congrArg List.length (List.isEmpty_iff.mp hemp)
    rw [List.length_append] at hlen
    have hcl := categorize_length ((uniq.filter
      (homepageLinkFilter dom)).map fun link =>
        { title := link.text, url := link.url, snippet := "" })
    rw [List.length_map] at hcl
    have hz : (uniq.filter (homepageLinkFilter dom)).length = 0 := by
      simp only [List.length_map, List.length_nil] at hlen
      omega
    exact hne (List.length_eq_zero.mp hz)

lemma siteSearchUniqueLinks_on_domain {extracted : List (String × String)}
    {baseUrl dom : String} {c : Link}
    (hc : c ∈ siteSearchUniqueLinks extracted baseUrl dom) :
    isOnDomain c.url dom = true := by
  unfold siteSearchUniqueLinks at hc
  have hc2 := mem_dedupeByUrl hc
  rcases List.mem_filterMap.mp hc2 with ⟨p, _, heq⟩
  rcases hn : normalizeUrl p.2 baseUrl with _ | nu
  · rw [hn] at heq
    exact Option.noConfusion heq
  · rw [hn] at heq
    dsimp only at heq
    split at heq
    · rename_i hcond
      injection heq with heq
      rw [← heq]
      exact hcond
    · exact Option.noConfusion heq

-- ===================================================================
-- MARK: C1 — same-site invariant (corrected: homepage filter fallback)
-- ===================================================================

/-- C1 counterexample: when the homepage domain/keyword filter removes
every link, the strategy falls back to the unfiltered unique links and
submits an off-site URL to verification — the same-site invariant fails
on the homepage path. -/
theorem same_site_counterexample :
    homepageCandidates { maxSearchResults := 10, maxCandidatesToCheck := 5 }
      [{ text := "News", url := "https://other.com/news" }] "acme.com" none =
      [{ text := "News", url := "https://other.com/news" }] ∧
    isOnDomain "https://other.com/news" "acme.com" = false := by decide

/-- C1 (amended): every candidate submitted to verification by the search
strategy satisfies `isUrlOnDomain`, and every candidate of the
site-search strategy satisfies `isOnDomain`; for the homepage strategy the
same-site invariant holds provided the domain/keyword filter retains at
least one link — when it removes every link the strategy falls back to
the unfiltered unique links, which may be off-site. -/
theorem candidates_same_site :
    (∀ (results : List SearchResult) (domain : String)
      (cfg : DiscoveryConfig) (c : SearchResult),
      c ∈ buildSearchCandidates results domain cfg →
      isUrlOnDomain c.url domain = true) ∧
    (∀ (extracted : List (String × String)) (baseUrl dom : String)
      (cfg : DiscoveryConfig) (c : Link),
      c ∈ siteSearchTermCandidates
        (siteSearchUniqueLinks extracted baseUrl dom) cfg →
      isOnDomain c.url dom = true) ∧
    (∀ (cfg : DiscoveryConfig) (uniq : List Link) (dom : String)
      (outcome : Option (List RankedItem)) (c : Link),
      uniq.filter (homepageLinkFilter dom) ≠ [] →
      c ∈ homepageCandidates cfg uniq dom outcome →
      isOnDomain c.url dom = true) := by
  refine ⟨?_, ?_, ?_⟩
  · intro results domain cfg c hc
    exact buildSearchCandidates_on_domain hc
  · intro extracted baseUrl dom cfg c hc
    exact siteSearchUniqueLinks_on_domain
      (List.mem_of_mem_take (by simpa [siteSearchTermCandidates] using hc))
  · intro cfg uniq dom outcome c hne hc
    exact buildHomepageFilteredLinks_on_domain hne (homepageCandidates_sub hc)

/-- Witness for C1: concrete applications of all three parts. -/
theorem candidates_same_site_witness :
    isUrlOnDomain "https://acme.com/news" "acme.com" = true ∧
    isOnDomain "https://acme.com/press" "acme.com" = true ∧
    isOnDomain "https://acme.com/newsroom" "acme.com" = true :=
  ⟨candidates_same_site.1
      [{ title := "Acme News", url := "https://acme.com/news"
       , snippet := "acme news" }] "acme.com"
      { maxSearchResults := 10, maxCandidatesToCheck := 5 }
      { title := "Acme News", url := "https://acme.com/news"
      , snippet := "acme news" } (by decide),
   candidates_same_site.2.1 [("Press", "/press")] "https://acme.com"
      "acme.com" { maxSearchResults := 10, maxCandidatesToCheck := 5 }
      { text := "Press", url := "https://acme.com/press" } (by decide),
   candidates_same_site.2.2
      { maxSearchResults := 10, maxCandidatesToCheck := 5 }
      [{ text := "Newsroom", url := "https://acme.com/newsroom" }] "acme.com"
      none { text := "Newsroom", url := "https://acme.com/newsroom" }
      (by decide) (by decide)⟩
